import Mathlib

/-!
Verification of the streaming inference pipeline (FastAPI + Redis video
inference service).

This file shallowly embeds the parts of the code base that the specification
talks about:

* the Redis cache facade used by the pipeline (`Store`): hash-field writes
  (`hset`/`hgetall`), list appends (`rpush`/`lrange 0 -1`), per-key TTL
  (`expire`), and key deletion (`delete`);
* `compute_metrics` from `app/utils/metrics.py`, translated over `ℚ`
  (the claims here concern branch structure and zero values, which rationals
  model faithfully);
* `run_inference_job` from `app/tasks.py`: the job pipeline, with the external
  collaborators (video probe, model construction, per-frame inference, JPEG
  encoding, mid-loop cache failures, wall-clock reads) supplied as an
  explicit environment `Env`;
* `download_job` from `app/routes/download.py`: the reconstruction endpoint,
  with ffmpeg's outcome supplied by the environment `DlEnv` and the scratch
  directory contents tracked explicitly.

Events published over WebSocket (`send_ws_message` / `send_ws_frame_b64`)
are recorded in an ordered event list; the base64 wrapping of frame payloads
is omitted (it is a bijection on the bytes).  Cache writes and TTL refreshes
performed by the pipeline are additionally recorded in an ordered `CacheOp`
trace so that TTL-refresh discipline can be stated.
-/

/-- Encoded image payloads (`bytes` in the source) are modelled as lists of
naturals. -/
abbrev Bytes := List Nat

/-- Raw video frames (`numpy` arrays in the source) are opaque; their identity
is all the claims need. -/
abbrev Frame := Nat

/-- `REDIS_TTL_SECONDS = 1800` from `app/config.py`. -/
def REDIS_TTL_SECONDS : Nat := 1800

/-- First-match association lookup, the model of Python `dict.get` /
`b"k" in meta` on a Redis hash (hashes have unique fields, so first match is
the match). -/
def lookupF : List (String × String) → String → Option String
  | [], _ => none
  | (k', v) :: rest, k => if k' = k then some v else lookupF rest k

/-- Insert-or-replace of one hash field, preserving the position of an
existing field (Redis `HSET` of a single field). -/
def upsert : List (String × String) → String → String → List (String × String)
  | [], k, v => [(k, v)]
  | (k', v') :: rest, k, v =>
      if k' = k then (k, v) :: rest else (k', v') :: upsert rest k v

/-- `HSET key mapping={...}`: fold the mapping's fields into the hash in
order. -/
def hsetFields (h : List (String × String)) (mapping : List (String × String)) :
    List (String × String) :=
  mapping.foldl (fun acc kv => upsert acc kv.1 kv.2) h

/-- The Redis cache state visible to the pipeline: hash keys, list keys and
per-key TTLs.  A key that was never written maps to the empty hash / empty
list / no TTL, matching Redis's behaviour for absent keys. -/
structure Store where
  hashes : String → List (String × String)
  lists : String → List Bytes
  ttls : String → Option Nat

/-- The cache with no keys. -/
def Store.empty : Store :=
  { hashes := fun _ => [], lists := fun _ => [], ttls := fun _ => none }

/-- `redis.hset(key, mapping=...)`. -/
def Store.hset (s : Store) (key : String) (mapping : List (String × String)) :
    Store :=
  { s with hashes := fun k => if k = key then hsetFields (s.hashes key) mapping
                              else s.hashes k }

/-- `redis.hgetall(key)`; an absent key yields the empty mapping. -/
def Store.hgetall (s : Store) (key : String) : List (String × String) :=
  s.hashes key

/-- `redis.rpush(key, v)`: append one entry at the tail of the list. -/
def Store.rpush (s : Store) (key : String) (v : Bytes) : Store :=
  { s with lists := fun k => if k = key then s.lists key ++ [v] else s.lists k }

/-- `redis.lrange(key, 0, -1)`: the whole list, in append order. -/
def Store.lrangeAll (s : Store) (key : String) : List Bytes :=
  s.lists key

/-- `redis.expire(key, ttl)`.  (Real Redis no-ops on an absent key; no claim
below depends on the stored TTL value, only on which operations the pipeline
issues, which the `CacheOp` trace records.) -/
def Store.expire (s : Store) (key : String) (ttl : Nat) : Store :=
  { s with ttls := fun k => if k = key then some ttl else s.ttls k }

/-- `redis.delete(key)`: the key is gone afterwards, whatever its type. -/
def Store.del (s : Store) (key : String) : Store :=
  { hashes := fun k => if k = key then [] else s.hashes k,
    lists := fun k => if k = key then [] else s.lists k,
    ttls := fun k => if k = key then none else s.ttls k }

/-- The key `f"job:{job_id}:meta"`. -/
def meta_key (job_id : String) : String := "job:" ++ job_id ++ ":meta"

/-- The key `f"job:{job_id}:frames"`. -/
def frames_key (job_id : String) : String := "job:" ++ job_id ++ ":frames"

/-- Python `round(x, ndigits)` over rationals (tie behaviour is irrelevant to
every claim below; all rounded values at stake are exact). -/
def roundTo (x : ℚ) (ndigits : Nat) : ℚ :=
  ((round (x * 10 ^ ndigits) : ℤ) : ℚ) / 10 ^ ndigits

/-- The metrics dictionary returned by `compute_metrics`. -/
structure Metrics where
  model : String
  total_frames : Nat
  total_time_s : ℚ
  avg_fps : ℚ
  avg_preprocess_ms : ℚ
  avg_infer_ms : ℚ
  avg_postprocess_ms : ℚ
deriving DecidableEq, Repr

/-- `compute_metrics` from `app/utils/metrics.py`, translated clause by
clause over `ℚ`. -/
def compute_metrics (t_preprocess t_infer t_post : List ℚ)
    (start_ts end_ts : ℚ) (total_frames : Nat) (model_name : String) :
    Metrics :=
  let total_time := end_ts - start_ts
  let avg_fps := if total_time > 0 then (total_frames : ℚ) / total_time else 0
  let avg_pre :=
    if t_preprocess.isEmpty then 0
    else t_preprocess.sum / (t_preprocess.length : ℚ)
  let avg_inf :=
    if t_infer.isEmpty then 0 else t_infer.sum / (t_infer.length : ℚ)
  let avg_post :=
    if t_post.isEmpty then 0 else t_post.sum / (t_post.length : ℚ)
  { model := model_name
    total_frames := total_frames
    total_time_s := roundTo total_time 4
    avg_fps := roundTo avg_fps 4
    avg_preprocess_ms := roundTo (avg_pre * 1000) 3
    avg_infer_ms := roundTo (avg_inf * 1000) 3
    avg_postprocess_ms := roundTo (avg_post * 1000) 3 }

/-- The `{k: str(v) for k, v in metrics.items()}` mapping merged into the
final metadata write. -/
def metricsFields (m : Metrics) : List (String × String) :=
  [("model", m.model),
   ("total_frames", toString m.total_frames),
   ("total_time_s", toString m.total_time_s),
   ("avg_fps", toString m.avg_fps),
   ("avg_preprocess_ms", toString m.avg_preprocess_ms),
   ("avg_infer_ms", toString m.avg_infer_ms),
   ("avg_postprocess_ms", toString m.avg_postprocess_ms)]

/-- One event published to the job's WebSocket observers. -/
inductive Event
  | error (message : String)
  | frame (idx : Nat) (data : Bytes)
  | progress (frame total : Nat) (pct : ℚ)
  | done (metrics : Metrics)
deriving DecidableEq, Repr

/-- `error` and `done` are the terminal events of a job's stream. -/
def isTerminalEvent : Event → Bool
  | Event.error _ => true
  | Event.done _ => true
  | _ => false

/-- One cache write or TTL refresh issued by the pipeline, in program order.
Reads (`exists`/`get` of the colour map) do not appear: the TTL claims are
about writes. -/
inductive CacheOp
  | write (key : String)
  | expire (key : String)
deriving DecidableEq, Repr

/-- Where, within one loop iteration's four awaited cache operations
(`app/tasks.py` lines 150-153), an injected cache failure raises.  The
operations before the failing one have already taken effect - in
particular a failure at line 151, 152 or 153 leaves the `rpush` of line
150 durable. -/
inductive CacheFailPoint
  | atRpush
  | atExpireFrames
  | atHsetMeta
  | atExpireMeta
deriving DecidableEq, Repr

/-- Behaviour of the external collaborators of `run_inference_job` for one
execution: the video probe, the model constructor, `cv2.VideoCapture`, the
per-frame `predict` outcome, JPEG encoding, injected cache-write failures,
and the wall clock.  `frames` is the sequence `cap.read()` yields;
`probeTotal` is `int(cap.get(CAP_PROP_FRAME_COUNT) or 0)` as reported by
`read_video_metadata` - an independent external that may be 0 or disagree
with the number of frames actually read. -/
structure Env where
  probeFail : Option String
  probeTotal : Nat
  frames : List Frame
  fps : ℚ
  modelLoadFail : Option String
  capOpens : Bool
  inferOk : Nat → Bool
  annotate : Frame → Frame
  encode : Frame → Option Bytes
  cacheFail : Nat → Option (CacheFailPoint × String)
  inferTime : Nat → ℚ
  startTs : ℚ
  endTs : ℚ

/-- The annotated-or-raw frame the loop encodes at iteration `frame_idx`
(`res.get("result_frame", frame)`: `predict`'s annotated frame on success,
the raw frame after a per-frame inference failure, `app/tasks.py` lines
136-143). -/
def outFrame (env : Env) (frame_idx : Nat) (f : Frame) : Frame :=
  if env.inferOk frame_idx then env.annotate f else f

/-- Result of the per-frame loop of `run_inference_job`: the cache state, the
published events, the cache-op trace, the `processed` counter, the `t_inf`
timing samples, and the exception (if any) that escaped to the outer
`except` block. -/
structure LoopResult where
  store : Store
  events : List Event
  trace : List CacheOp
  processed : Nat
  t_inf : List ℚ
  aborted : Option String

/-- The `while True` loop body of `run_inference_job` (`app/tasks.py`,
lines 130-166), one recursive step per `cap.read()`.  A `cacheFail` at an
iteration models one of that iteration's four awaited cache operations
(lines 150-153) raising, with the operations before the failing point
already durable; the exception lands in the outer `except` block
(lines 168-170), which writes `status=failed` and publishes one `error`
event, after which the loop is over. -/
def procLoop (env : Env) (fk mk : String) (total : Nat) :
    List Frame → Nat → Nat → List ℚ → Store → List Event → List CacheOp →
    LoopResult
  | [], _, processed, tinf, s, evs, tr =>
      { store := s, events := evs, trace := tr, processed := processed,
        t_inf := tinf, aborted := none }
  | f :: rest, frame_idx, processed, tinf, s, evs, tr =>
      let tinf' := tinf ++ [env.inferTime frame_idx]
      match env.encode (outFrame env frame_idx f) with
      | none =>
          procLoop env fk mk total rest (frame_idx + 1) processed tinf' s evs tr
      | some jpg_bytes =>
          match env.cacheFail frame_idx with
          | some (CacheFailPoint.atRpush, msg) =>
              { store := s.hset mk [("status", "failed"), ("error", msg)],
                events := evs ++ [Event.error msg],
                trace := tr ++ [CacheOp.write mk],
                processed := processed, t_inf := tinf', aborted := some msg }
          | some (CacheFailPoint.atExpireFrames, msg) =>
              { store := (s.rpush fk jpg_bytes).hset mk
                  [("status", "failed"), ("error", msg)],
                events := evs ++ [Event.error msg],
                trace := tr ++ [CacheOp.write fk, CacheOp.write mk],
                processed := processed, t_inf := tinf', aborted := some msg }
          | some (CacheFailPoint.atHsetMeta, msg) =>
              { store := ((s.rpush fk jpg_bytes).expire fk
                  REDIS_TTL_SECONDS).hset mk
                  [("status", "failed"), ("error", msg)],
                events := evs ++ [Event.error msg],
                trace := tr ++ [CacheOp.write fk, CacheOp.expire fk,
                                CacheOp.write mk],
                processed := processed, t_inf := tinf', aborted := some msg }
          | some (CacheFailPoint.atExpireMeta, msg) =>
              { store := (((s.rpush fk jpg_bytes).expire fk
                  REDIS_TTL_SECONDS).hset mk
                  [("processed_frames", toString (frame_idx + 1)),
                   ("total_frames", toString total)]).hset mk
                  [("status", "failed"), ("error", msg)],
                events := evs ++ [Event.error msg],
                trace := tr ++ [CacheOp.write fk, CacheOp.expire fk,
                                CacheOp.write mk, CacheOp.write mk],
                processed := processed, t_inf := tinf', aborted := some msg }
          | none =>
              let s1 := s.rpush fk jpg_bytes
              let s2 := s1.expire fk REDIS_TTL_SECONDS
              let s3 := s2.hset mk
                [("processed_frames", toString (frame_idx + 1)),
                 ("total_frames", toString total)]
              let s4 := s3.expire mk REDIS_TTL_SECONDS
              let tr' := tr ++ [CacheOp.write fk, CacheOp.expire fk,
                                CacheOp.write mk, CacheOp.expire mk]
              let evs1 := evs ++ [Event.frame frame_idx jpg_bytes]
              let pct : ℚ :=
                if total ≠ 0 then ((frame_idx + 1 : ℚ) / (total : ℚ)) * 100
                else 0
              let evs2 := evs1 ++
                [Event.progress (frame_idx + 1) total (roundTo pct 2)]
              procLoop env fk mk total rest (frame_idx + 1) (processed + 1)
                tinf' s4 evs2 tr'

/-- Result of one `run_inference_job` execution. -/
structure RunResult where
  store : Store
  events : List Event
  trace : List CacheOp

/-- `run_inference_job` from `app/tasks.py`, translated step by step.
`total_frames = meta.get("total_frames") or 0` (line 78) is the probed
count `env.probeTotal` (the `or 0` is the identity on a natural number,
since `read_video_metadata` always supplies the key with a non-negative
int); it is independent of how many frames `cap.read()` yields.  The
custom-colour lookup (lines 88-100) only configures the adapter and performs
no cache writes; its effect is folded into `env.annotate`.  Note that after
the `try/except/finally` around the loop the source falls through to the
final `status=done` write and `done` event (lines 175-191) even when the
`except` block has just recorded `status=failed` - there is no `return` in
that handler - and the embedding reproduces this. -/
def run_inference_job (env : Env) (job_id : String) (model_name : String)
    (s0 : Store) : RunResult :=
  let mk := meta_key job_id
  let fk := frames_key job_id
  let s := s0.hset mk [("model", model_name), ("status", "running")]
  let s := s.expire mk REDIS_TTL_SECONDS
  let s := s.expire fk REDIS_TTL_SECONDS
  let tr : List CacheOp :=
    [CacheOp.write mk, CacheOp.expire mk, CacheOp.expire fk]
  match env.probeFail with
  | some exc =>
      { store := s.hset mk [("status", "failed"), ("error", exc)],
        events := [Event.error exc],
        trace := tr ++ [CacheOp.write mk] }
  | none =>
      let total_frames := env.probeTotal
      match env.modelLoadFail with
      | some e =>
          { store := s.hset mk [("status", "failed"), ("error", e)],
            events := [Event.error ("Model load failed: " ++ e)],
            trace := tr ++ [CacheOp.write mk] }
      | none =>
          if env.capOpens = false then
            { store := s.hset mk
                [("status", "failed"), ("error", "Cannot open video")],
              events := [Event.error "Cannot open video"],
              trace := tr ++ [CacheOp.write mk] }
          else
            let R := procLoop env fk mk total_frames env.frames 0 0 [] s [] tr
            let metrics := compute_metrics [] R.t_inf [] env.startTs env.endTs
              R.processed model_name
            let s' := R.store.hset mk
              ([("status", "done"),
                ("processed_frames", toString R.processed),
                ("total_frames", toString total_frames),
                ("start_ts", toString env.startTs),
                ("end_ts", toString env.endTs)] ++ metricsFields metrics)
            let s' := s'.expire mk REDIS_TTL_SECONDS
            let s' := s'.expire fk REDIS_TTL_SECONDS
            { store := s',
              events := R.events ++ [Event.done metrics],
              trace := R.trace ++ [CacheOp.write mk, CacheOp.expire mk,
                                   CacheOp.expire fk] }

/-- Behaviour of the externals of `download_job` for one execution: whether
the ffmpeg subprocess fails (`subprocess.CalledProcessError` message), and
Python `float()` applied to a stored fps string. -/
structure DlEnv where
  ffmpegFail : Option String
  parseFloat : String → ℚ

/-- The HTTP-level outcome of `download_job`: either an `HTTPException`
(status code plus detail string) or a `FileResponse`. -/
inductive DlResult
  | httpError (status : Nat) (detail : String)
  | fileResponse (path filename media_type : String)
deriving DecidableEq, Repr

/-- Result of one `download_job` execution: the cache state afterwards, the
files present in the scratch directory `TMP_DIR/dl_{job_id}` when the
operation finishes, the fps the muxing step used (when reached), and the
HTTP outcome. -/
structure DlOutcome where
  store : Store
  scratch : List String
  fps_used : Option ℚ
  result : DlResult

/-- `frame_{i:06d}.jpg`: the zero-padded scratch file name of frame `i`. -/
def frameFileName (i : Nat) : String :=
  let s := toString i
  "frame_" ++ String.mk (List.replicate (6 - s.length) '0') ++ s ++ ".jpg"

/-- `download_job` from `app/routes/download.py`, translated step by step.
The source writes every cached frame into the scratch directory, runs
ffmpeg, and - on success only - deletes the job's two cache keys; no
statement in the function removes anything from the scratch directory on
either path (on the success path the `FileResponse` streams the output
video from that very directory). -/
def download_job (env : DlEnv) (job_id : String) (s : Store) : DlOutcome :=
  let fk := frames_key job_id
  let mk := meta_key job_id
  let meta := s.hgetall mk
  if meta = [] then
    { store := s, scratch := [], fps_used := none,
      result := DlResult.httpError 404 "Job not found or expired" }
  else
    let frames := s.lrangeAll fk
    if frames = [] then
      { store := s, scratch := [], fps_used := none,
        result := DlResult.httpError 404
          "No frames cached for job (expired or failed)" }
    else
      let frame_files := (List.range frames.length).map frameFileName
      let fps : ℚ :=
        match lookupF meta "fps" with
        | some v => env.parseFloat v
        | none => 25
      let out_video := job_id ++ ".mp4"
      match env.ffmpegFail with
      | some e =>
          { store := s, scratch := frame_files, fps_used := some fps,
            result := DlResult.httpError 500 ("ffmpeg failed: " ++ e) }
      | none =>
          let s1 := s.del fk
          let s2 := s1.del mk
          { store := s2, scratch := frame_files ++ [out_video],
            fps_used := some fps,
            result := DlResult.fileResponse out_video (job_id ++ ".mp4")
              "video/mp4" }

/-- Whether a cache operation is a TTL refresh of `key`. -/
def opIsExpire (key : String) : CacheOp → Bool
  | CacheOp.expire k => k == key
  | _ => false

/-- Sliding-TTL discipline, weak form: every write in the trace is followed,
somewhere later in the trace, by a TTL refresh of the written key. -/
def everyWriteRefreshed : List CacheOp → Bool
  | [] => true
  | CacheOp.write k :: rest =>
      rest.any (opIsExpire k) && everyWriteRefreshed rest
  | CacheOp.expire _ :: rest => everyWriteRefreshed rest

/-- Sliding-TTL discipline, strong form: every write is immediately followed
by a TTL refresh of the written key. -/
def everyWriteImmediatelyRefreshed : List CacheOp → Bool
  | [] => true
  | CacheOp.write k :: CacheOp.expire k' :: rest =>
      (k' == k) && everyWriteImmediatelyRefreshed (CacheOp.expire k' :: rest)
  | CacheOp.write _ :: _ => false
  | CacheOp.expire _ :: rest => everyWriteImmediatelyRefreshed rest

/-- The cache-operation block sequence the loop issues from iteration `i`
over the remaining frames, when no cache write fails: one
append/refresh/write/refresh block per successfully encoded frame, nothing
for a skipped frame. -/
def loopTrace (env : Env) (fk mk : String) : Nat → List Frame → List CacheOp
  | _, [] => []
  | i, f :: rest =>
      match env.encode (outFrame env i f) with
      | none => loopTrace env fk mk (i + 1) rest
      | some _ =>
          [CacheOp.write fk, CacheOp.expire fk,
           CacheOp.write mk, CacheOp.expire mk] ++ loopTrace env fk mk (i + 1) rest

/-- A run in which the cache write of frame 0 raises: the outer `except`
block of `run_inference_job` fires. -/
def envCacheBoom : Env :=
  { probeFail := none, probeTotal := 1, frames := [7], fps := 30,
    modelLoadFail := none, capOpens := true, inferOk := fun _ => true,
    annotate := id, encode := fun f => some [f],
    cacheFail := fun _ => some (CacheFailPoint.atRpush, "redis write failed"),
    inferTime := fun _ => 0, startTs := 0, endTs := 0 }

/-- A run whose video probe raises (`read_video_metadata` failure). -/
def envProbeBoom : Env :=
  { probeFail := some "probe boom", probeTotal := 0, frames := [], fps := 30,
    modelLoadFail := none, capOpens := true, inferOk := fun _ => true,
    annotate := id, encode := fun f => some [f], cacheFail := fun _ => none,
    inferTime := fun _ => 0, startTs := 0, endTs := 0 }

/-- A fully successful 10-frame run whose inference fails exactly on frame
index 5; every frame encodes, no cache write fails. -/
def envHappy : Env :=
  { probeFail := none, probeTotal := 10, frames := List.range 10, fps := 25,
    modelLoadFail := none, capOpens := true,
    inferOk := fun i => i != 5, annotate := fun f => f + 100,
    encode := fun f => some [f], cacheFail := fun _ => none,
    inferTime := fun _ => 0, startTs := 0, endTs := 2 }

/-- A cache state holding a completed job `"j"`: metadata plus one cached
frame. -/
def storeDone : Store :=
  (Store.empty.hset (meta_key "j") [("status", "done")]).rpush
    (frames_key "j") [9]

/-- A download environment whose ffmpeg invocation succeeds. -/
def dlEnvOk : DlEnv := { ffmpegFail := none, parseFloat := fun _ => 0 }

/-- A minimal fully successful run: one frame, everything succeeds. -/
def envOneFrame : Env :=
  { probeFail := none, probeTotal := 1, frames := [3], fps := 25,
    modelLoadFail := none, capOpens := true, inferOk := fun _ => true,
    annotate := fun f => f + 100, encode := fun f => some [f],
    cacheFail := fun _ => none,
    inferTime := fun _ => 0, startTs := 0, endTs := 1 }

/-- A run on a readable 1-frame video whose probe reports a frame count of 0
(`CAP_PROP_FRAME_COUNT` is 0 or missing, so `or 0` kicks in); everything
else succeeds. -/
def envProbeZero : Env :=
  { probeFail := none, probeTotal := 0, frames := [5], fps := 30,
    modelLoadFail := none, capOpens := true, inferOk := fun _ => true,
    annotate := fun f => f + 100, encode := fun f => some [f],
    cacheFail := fun _ => none,
    inferTime := fun _ => 0, startTs := 0, endTs := 0 }

/-- A 1-frame run whose first iteration's `expire(frames_key)` (line 151)
raises just after the `rpush` of line 150 has taken effect: the frame
record is stored but `processed` is never incremented. -/
def envPostAppendBoom : Env :=
  { probeFail := none, probeTotal := 1, frames := [5], fps := 30,
    modelLoadFail := none, capOpens := true, inferOk := fun _ => true,
    annotate := fun f => f + 100, encode := fun f => some [f],
    cacheFail := fun _ =>
      some (CacheFailPoint.atExpireFrames, "redis expire failed"),
    inferTime := fun _ => 0, startTs := 0, endTs := 0 }

/-! ### Hash-field lookup lemmas -/

theorem lookupF_upsert (h : List (String × String)) (a b k : String) :
    lookupF (upsert h a b) k = if a = k then some b else lookupF h k := by
  induction h with
  | nil => simp [upsert, lookupF]
  | cons p rest ih =>
      obtain ⟨k', v'⟩ := p
      by_cases hka : k' = a
      · subst hka
        by_cases hak : k' = k <;> simp [upsert, lookupF, hak]
      · by_cases hkk : k' = k
        · subst hkk
          have hak : ¬a = k' := fun hh => hka hh.symm
          simp [upsert, hka, lookupF, hak]
        · simp [upsert, hka, lookupF, hkk, ih]

theorem lookupF_append (l1 l2 : List (String × String)) (k : String) :
    lookupF (l1 ++ l2) k = (lookupF l1 k).or (lookupF l2 k) := by
  induction l1 with
  | nil => simp [lookupF]
  | cons p rest ih =>
      obtain ⟨k', v⟩ := p
      by_cases hk : k' = k <;> simp [lookupF, hk, ih]

theorem lookupF_hsetFields (m h : List (String × String)) (k : String) :
    lookupF (hsetFields h m) k = (lookupF m.reverse k).or (lookupF h k) := by
  induction m generalizing h with
  | nil => simp [hsetFields, lookupF]
  | cons p rest ih =>
      obtain ⟨a, b⟩ := p
      have h1 : hsetFields h ((a, b) :: rest) = hsetFields (upsert h a b) rest :=
        rfl
      rw [h1, ih, lookupF_upsert, List.reverse_cons, lookupF_append,
        Option.or_assoc]
      congr 1
      by_cases hak : a = k <;> simp [lookupF, hak]

/-! ### Store observation lemmas -/

theorem hgetall_hset_self (s : Store) (key : String)
    (m : List (String × String)) :
    (s.hset key m).hgetall key = hsetFields (s.hgetall key) m := by
  simp [Store.hset, Store.hgetall]

theorem lookupF_hget_hset_self (s : Store) (key : String)
    (m : List (String × String)) (k : String) :
    lookupF ((s.hset key m).hgetall key) k =
      (lookupF m.reverse k).or (lookupF (s.hgetall key) k) := by
  rw [hgetall_hset_self, lookupF_hsetFields]

theorem hgetall_expire (s : Store) (key : String) (ttl : Nat) (k : String) :
    (s.expire key ttl).hgetall k = s.hgetall k := rfl

theorem hgetall_rpush (s : Store) (key : String) (v : Bytes) (k : String) :
    (s.rpush key v).hgetall k = s.hgetall k := rfl

theorem lists_hset (s : Store) (key : String) (m : List (String × String))
    (k : String) : (s.hset key m).lists k = s.lists k := rfl

theorem lists_expire (s : Store) (key : String) (ttl : Nat) (k : String) :
    (s.expire key ttl).lists k = s.lists k := rfl

theorem lists_rpush_self (s : Store) (key : String) (v : Bytes) :
    (s.rpush key v).lists key = s.lists key ++ [v] := by
  simp [Store.rpush]

theorem hgetall_del_self (s : Store) (key : String) :
    (s.del key).hgetall key = [] := by
  simp [Store.del, Store.hgetall]

theorem lists_del_self (s : Store) (key : String) :
    (s.del key).lists key = [] := by
  simp [Store.del]

/-! ### Per-frame loop lemmas -/

theorem procLoop_events_mono (env : Env) (fk mk : String) (total : Nat) :
    ∀ (fs : List Frame) (i p : Nat) (tinf : List ℚ) (s : Store)
      (evs : List Event) (tr : List CacheOp) (e : Event), e ∈ evs →
      e ∈ (procLoop env fk mk total fs i p tinf s evs tr).events := by
  intro fs
  induction fs with
  | nil => intro i p tinf s evs tr e he; simpa [procLoop] using he
  | cons f rest ih =>
      intro i p tinf s evs tr e he
      simp only [procLoop]
      cases hE : env.encode (outFrame env i f) with
      | none => exact ih _ _ _ _ _ _ _ he
      | some jpg =>
          cases hC : env.cacheFail i with
          | some pm =>
              obtain ⟨pt, msg⟩ := pm
              cases pt <;> simp [List.mem_append, he]
          | none =>
              exact ih _ _ _ _ _ _ _ (by simp [List.mem_append, he])

theorem procLoop_appends (env : Env) (fk mk : String) (total : Nat)
    (hcf : ∀ j, env.cacheFail j = none) :
    ∀ (fs : List Frame) (i p : Nat) (tinf : List ℚ) (s : Store)
      (evs : List Event) (tr : List CacheOp),
      ∃ A : List Bytes,
        (procLoop env fk mk total fs i p tinf s evs tr).store.lists fk =
          s.lists fk ++ A ∧
        (procLoop env fk mk total fs i p tinf s evs tr).processed =
          p + A.length ∧
        A.length ≤ fs.length := by
  intro fs
  induction fs with
  | nil => intro i p tinf s evs tr; exact ⟨[], by simp [procLoop]⟩
  | cons f rest ih =>
      intro i p tinf s evs tr
      simp only [procLoop]
      cases hE : env.encode (outFrame env i f) with
      | none =>
          obtain ⟨A, h1, h2, h3⟩ := ih (i + 1) p (tinf ++ [env.inferTime i]) s evs tr
          exact ⟨A, h1, h2, Nat.le_succ_of_le h3⟩
      | some jpg =>
          rw [hcf i]
          simp only []
          obtain ⟨A, h1, h2, h3⟩ := ih (i + 1) (p + 1) (tinf ++ [env.inferTime i]) _ _ _
          refine ⟨jpg :: A, ?_, ?_, by simpa using Nat.succ_le_succ h3⟩
          · rw [h1]
            simp [Store.hset, Store.expire, Store.rpush]
          · rw [h2, List.length_cons]; omega

theorem procLoop_hash_preserved (env : Env) (fk mk : String) (total : Nat)
    (k : String) (h1 : k ≠ "processed_frames") (h2 : k ≠ "total_frames")
    (h3 : k ≠ "status") (h4 : k ≠ "error") :
    ∀ (fs : List Frame) (i p : Nat) (tinf : List ℚ) (s : Store)
      (evs : List Event) (tr : List CacheOp),
      lookupF
        ((procLoop env fk mk total fs i p tinf s evs tr).store.hgetall mk) k =
        lookupF (s.hgetall mk) k := by
  intro fs
  induction fs with
  | nil => intro i p tinf s evs tr; simp [procLoop]
  | cons f rest ih =>
      intro i p tinf s evs tr
      simp only [procLoop]
      cases hE : env.encode (outFrame env i f) with
      | none => exact ih _ _ _ _ _ _
      | some jpg =>
          cases hC : env.cacheFail i with
          | some pm =>
              obtain ⟨pt, msg⟩ := pm
              cases pt
              · rw [lookupF_hget_hset_self]
                simp [lookupF, Ne.symm h3, Ne.symm h4]
              · rw [lookupF_hget_hset_self]
                simp [lookupF, Ne.symm h3, Ne.symm h4, hgetall_rpush]
              · rw [lookupF_hget_hset_self]
                simp [lookupF, Ne.symm h3, Ne.symm h4, hgetall_expire,
                  hgetall_rpush]
              · rw [lookupF_hget_hset_self, lookupF_hget_hset_self]
                simp [lookupF, Ne.symm h1, Ne.symm h2, Ne.symm h3,
                  Ne.symm h4, hgetall_expire, hgetall_rpush]
          | none =>
              rw [ih]
              show lookupF (((((s.rpush fk jpg).expire fk _).hset mk
                _).expire mk _).hgetall mk) k = _
              rw [hgetall_expire, lookupF_hget_hset_self]
              simp [lookupF, Ne.symm h1, Ne.symm h2, hgetall_expire,
                hgetall_rpush]

theorem procLoop_trace_noCacheFail (env : Env) (fk mk : String) (total : Nat)
    (hcf : ∀ j, env.cacheFail j = none) :
    ∀ (fs : List Frame) (i p : Nat) (tinf : List ℚ) (s : Store)
      (evs : List Event) (tr : List CacheOp),
      (procLoop env fk mk total fs i p tinf s evs tr).trace =
        tr ++ loopTrace env fk mk i fs := by
  intro fs
  induction fs with
  | nil => intro i p tinf s evs tr; simp [procLoop, loopTrace]
  | cons f rest ih =>
      intro i p tinf s evs tr
      simp only [procLoop, loopTrace]
      cases hE : env.encode (outFrame env i f) with
      | none => exact ih _ _ _ _ _ _
      | some jpg =>
          rw [hcf i]
          simp only []
          rw [ih]
          simp

theorem procLoop_processed_encTotal (env : Env) (fk mk : String) (total : Nat)
    (encF : Frame → Bytes) (hcf : ∀ j, env.cacheFail j = none)
    (henc : ∀ f, env.encode f = some (encF f)) :
    ∀ (fs : List Frame) (i p : Nat) (tinf : List ℚ) (s : Store)
      (evs : List Event) (tr : List CacheOp),
      (procLoop env fk mk total fs i p tinf s evs tr).processed =
        p + fs.length := by
  intro fs
  induction fs with
  | nil => intro i p tinf s evs tr; simp [procLoop]
  | cons f rest ih =>
      intro i p tinf s evs tr
      simp only [procLoop]
      rw [henc (outFrame env i f)]
      simp only []
      rw [hcf i]
      simp only []
      rw [ih]
      simp [List.length_cons]
      omega

theorem procLoop_frame_event_mem (env : Env) (fk mk : String) (total : Nat)
    (encF : Frame → Bytes) (hcf : ∀ j, env.cacheFail j = none)
    (henc : ∀ f, env.encode f = some (encF f)) :
    ∀ (fs : List Frame) (i p : Nat) (tinf : List ℚ) (s : Store)
      (evs : List Event) (tr : List CacheOp) (j : Nat) (hj : j < fs.length),
      Event.frame (i + j) (encF (outFrame env (i + j) (fs.get ⟨j, hj⟩))) ∈
        (procLoop env fk mk total fs i p tinf s evs tr).events := by
  intro fs
  induction fs with
  | nil => intro i p tinf s evs tr j hj; exact absurd hj (by simp)
  | cons f rest ih =>
      intro i p tinf s evs tr j hj
      simp only [procLoop]
      rw [henc (outFrame env i f)]
      simp only []
      rw [hcf i]
      simp only []
      cases j with
      | zero =>
          apply procLoop_events_mono
          simp [List.get]
      | succ j' =>
          have hj' : j' < rest.length := by simpa using hj
          have harith : i + (j' + 1) = i + 1 + j' := by omega
          rw [harith]
          exact ih (i + 1) (p + 1) _ _ _ _ j' hj'

theorem procLoop_progress_event_mem (env : Env) (fk mk : String) (total : Nat)
    (encF : Frame → Bytes) (hcf : ∀ j, env.cacheFail j = none)
    (henc : ∀ f, env.encode f = some (encF f)) :
    ∀ (fs : List Frame) (i p : Nat) (tinf : List ℚ) (s : Store)
      (evs : List Event) (tr : List CacheOp) (j : Nat), j < fs.length →
      ∃ q, Event.progress (i + j + 1) total q ∈
        (procLoop env fk mk total fs i p tinf s evs tr).events := by
  intro fs
  induction fs with
  | nil => intro i p tinf s evs tr j hj; exact absurd hj (by simp)
  | cons f rest ih =>
      intro i p tinf s evs tr j hj
      simp only [procLoop]
      rw [henc (outFrame env i f)]
      simp only []
      rw [hcf i]
      simp only []
      cases j with
      | zero =>
          refine ⟨roundTo (if total ≠ 0 then ((i + 1 : ℚ) / (total : ℚ)) * 100
            else 0) 2, ?_⟩
          apply procLoop_events_mono
          simp
      | succ j' =>
          have hj' : j' < rest.length := by simpa using hj
          have harith : i + (j' + 1) + 1 = i + 1 + j' + 1 := by omega
          rw [harith]
          exact ih (i + 1) (p + 1) _ _ _ _ j' hj'

/-! ### Final metadata write lemmas -/

theorem doneWrite_lookup_status (s : Store) (mk : String)
    (processed total : Nat) (st et : ℚ) (m : Metrics) :
    lookupF ((s.hset mk
      ([("status", "done"), ("processed_frames", toString processed),
        ("total_frames", toString total), ("start_ts", toString st),
        ("end_ts", toString et)] ++ metricsFields m)).hgetall mk) "status" =
      some "done" := by
  rw [lookupF_hget_hset_self]
  simp [metricsFields, lookupF]

theorem doneWrite_lookup_processed (s : Store) (mk : String)
    (processed total : Nat) (st et : ℚ) (m : Metrics) :
    lookupF ((s.hset mk
      ([("status", "done"), ("processed_frames", toString processed),
        ("total_frames", toString total), ("start_ts", toString st),
        ("end_ts", toString et)] ++ metricsFields m)).hgetall mk)
      "processed_frames" = some (toString processed) := by
  rw [lookupF_hget_hset_self]
  simp [metricsFields, lookupF]

theorem doneWrite_lookup_fps (s : Store) (mk : String)
    (processed total : Nat) (st et : ℚ) (m : Metrics) :
    lookupF ((s.hset mk
      ([("status", "done"), ("processed_frames", toString processed),
        ("total_frames", toString total), ("start_ts", toString st),
        ("end_ts", toString et)] ++ metricsFields m)).hgetall mk) "fps" =
      lookupF (s.hgetall mk) "fps" := by
  rw [lookupF_hget_hset_self]
  simp [metricsFields, lookupF]

theorem failedWrite_lookup_fps (s : Store) (mk msg : String) :
    lookupF ((s.hset mk [("status", "failed"),
      ("error", msg)]).hgetall mk) "fps" = lookupF (s.hgetall mk) "fps" := by
  rw [lookupF_hget_hset_self]
  simp [lookupF]

theorem initWrite_lookup_fps (s : Store) (mk model : String) :
    lookupF ((s.hset mk [("model", model),
      ("status", "running")]).hgetall mk) "fps" =
      lookupF (s.hgetall mk) "fps" := by
  rw [lookupF_hget_hset_self]
  simp [lookupF]

/-! ### TTL-refresh trace lemmas -/

theorem ewir_loopTrace_done (env : Env) (fk mk : String) :
    ∀ (fs : List Frame) (i : Nat),
      everyWriteImmediatelyRefreshed (loopTrace env fk mk i fs ++
        [CacheOp.write mk, CacheOp.expire mk, CacheOp.expire fk]) = true := by
  intro fs
  induction fs with
  | nil =>
      intro i
      simp [loopTrace, everyWriteImmediatelyRefreshed]
  | cons f rest ih =>
      intro i
      simp only [loopTrace]
      cases hE : env.encode (outFrame env i f) with
      | none => exact ih (i + 1)
      | some jpg =>
          simp only [List.cons_append, List.append_assoc]
          simp [everyWriteImmediatelyRefreshed]
          exact ih (i + 1)

/-! ### Claim theorems -/

theorem roundTo_zero (d : Nat) : roundTo 0 d = 0 := by
  simp [roundTo]

/-- C9: `compute_metrics` is total and never raises a division error: when
the elapsed time `end_ts - start_ts` is not positive it reports
`avg_fps = 0`, a zero frame count also yields `avg_fps = 0`, and each empty
timing-sample list yields a per-stage mean of 0; in particular, metrics for
zero processed frames with no samples report `avg_fps = 0` and all stage
averages `= 0`. -/
theorem compute_metrics_never_divides (tp ti tpo : List ℚ) (s e : ℚ)
    (n : Nat) (m : String) :
    (e - s ≤ 0 → (compute_metrics tp ti tpo s e n m).avg_fps = 0) ∧
    (n = 0 → (compute_metrics tp ti tpo s e n m).avg_fps = 0) ∧
    (tp = [] → (compute_metrics tp ti tpo s e n m).avg_preprocess_ms = 0) ∧
    (ti = [] → (compute_metrics tp ti tpo s e n m).avg_infer_ms = 0) ∧
    (tpo = [] → (compute_metrics tp ti tpo s e n m).avg_postprocess_ms = 0) := by
  refine ⟨?_, ?_, ?_, ?_, ?_⟩
  · intro h
    simp [compute_metrics, not_lt.mpr h, roundTo_zero]
  · intro h
    subst h
    by_cases hpos : e - s > 0 <;>
      simp [compute_metrics, hpos, roundTo_zero]
  · intro h
    subst h
    simp [compute_metrics, roundTo_zero]
  · intro h
    subst h
    simp [compute_metrics, roundTo_zero]
  · intro h
    subst h
    simp [compute_metrics, roundTo_zero]

/-- Witness for C9: a job with zero processed frames, no timing samples and
zero elapsed time reports all-zero averages. -/
theorem compute_metrics_never_divides_witness :
    (compute_metrics [] [] [] 5 5 0 "yolov8n").avg_fps = 0 ∧
    (compute_metrics [] [] [] 5 5 0 "yolov8n").avg_preprocess_ms = 0 ∧
    (compute_metrics [] [] [] 5 5 0 "yolov8n").avg_infer_ms = 0 ∧
    (compute_metrics [] [] [] 5 5 0 "yolov8n").avg_postprocess_ms = 0 :=
  ⟨(compute_metrics_never_divides [] [] [] 5 5 0 "yolov8n").1 (by norm_num),
   (compute_metrics_never_divides [] [] [] 5 5 0 "yolov8n").2.2.1 rfl,
   (compute_metrics_never_divides [] [] [] 5 5 0 "yolov8n").2.2.2.1 rfl,
   (compute_metrics_never_divides [] [] [] 5 5 0 "yolov8n").2.2.2.2 rfl⟩

/-- C10: appending N frame payloads in order to a job's initially empty
frame sequence and then reading the whole sequence back (`lrange 0 -1`)
returns exactly those N payloads, in append order. -/
theorem append_readAll_roundtrip (s : Store) (key : String) (ps : List Bytes)
    (h : s.lrangeAll key = []) :
    (ps.foldl (fun st p => st.rpush key p) s).lrangeAll key = ps := by
  have main : ∀ (qs : List Bytes) (st : Store),
      (qs.foldl (fun st p => st.rpush key p) st).lrangeAll key =
        st.lrangeAll key ++ qs := by
    intro qs
    induction qs with
    | nil => intro st; simp
    | cons q rest ih =>
        intro st
        simp only [List.foldl_cons]
        rw [ih]
        simp [Store.rpush, Store.lrangeAll]
  rw [main, h]
  simp

/-- Witness for C10: three concrete payloads round-trip through the cache of
job `"j"`. -/
theorem append_readAll_roundtrip_witness :
    (([[1], [2], [3]] : List Bytes).foldl
      (fun st p => st.rpush (frames_key "j") p) Store.empty).lrangeAll
      (frames_key "j") = [[1], [2], [3]] :=
  append_readAll_roundtrip Store.empty (frames_key "j") [[1], [2], [3]] rfl

theorem meta_key_ne_frames_key (j : String) : meta_key j ≠ frames_key j := by
  intro h
  have hl := congrArg String.length h
  simp [meta_key, frames_key, String.length_append] at hl
  exact absurd hl (by decide)

/-- C6: retrieval fails with the 404 "Job not found or expired" outcome
exactly when the job's metadata hash is absent, and with the distinct 404
"No frames cached" outcome exactly when metadata exists but the cached frame
sequence is empty; the two outcomes are distinct values. -/
theorem retrieval_notfound_vs_noframes (env : DlEnv) (j : String) (s : Store) :
    ((download_job env j s).result =
        DlResult.httpError 404 "Job not found or expired" ↔
      s.hgetall (meta_key j) = []) ∧
    ((download_job env j s).result =
        DlResult.httpError 404 "No frames cached for job (expired or failed)" ↔
      (s.hgetall (meta_key j) ≠ [] ∧ s.lrangeAll (frames_key j) = [])) ∧
    DlResult.httpError 404 "Job not found or expired" ≠
      DlResult.httpError 404 "No frames cached for job (expired or failed)" := by
  refine ⟨?_, ?_, by decide⟩
  · by_cases h1 : s.hgetall (meta_key j) = []
    · simp [download_job, h1]
    · by_cases h2 : s.lrangeAll (frames_key j) = []
      · simp [download_job, h1, h2]
      · cases hf : env.ffmpegFail with
        | some e => simp [download_job, h1, h2, hf]
        | none => simp [download_job, h1, h2, hf]
  · by_cases h1 : s.hgetall (meta_key j) = []
    · simp [download_job, h1]
    · by_cases h2 : s.lrangeAll (frames_key j) = []
      · simp [download_job, h1, h2]
      · cases hf : env.ffmpegFail with
        | some e => simp [download_job, h1, h2, hf]
        | none => simp [download_job, h1, h2, hf]

/-- C7: on a successful reconstruction, `download_job` deletes both the
job's metadata hash and its frame-sequence list from the cache, so a second
retrieval of the same job id fails with the 404 "Job not found or expired"
outcome (one-shot retrieval). -/
theorem retrieval_one_shot (env env2 : DlEnv) (j : String) (s : Store)
    (hok : ∃ p f mt, (download_job env j s).result =
      DlResult.fileResponse p f mt) :
    (download_job env j s).store.hgetall (meta_key j) = [] ∧
    (download_job env j s).store.lrangeAll (frames_key j) = [] ∧
    (download_job env2 j (download_job env j s).store).result =
      DlResult.httpError 404 "Job not found or expired" := by
  obtain ⟨p, f, mt, hres⟩ := hok
  by_cases h1 : s.hgetall (meta_key j) = []
  · simp [download_job, h1] at hres
  by_cases h2 : s.lrangeAll (frames_key j) = []
  · simp [download_job, h1, h2] at hres
  cases hf : env.ffmpegFail with
  | some e => simp [download_job, h1, h2, hf] at hres
  | none =>
      have hst : (download_job env j s).store =
          (s.del (frames_key j)).del (meta_key j) := by
        simp [download_job, h1, h2, hf]
      have hmeta : ((s.del (frames_key j)).del (meta_key j)).hgetall
          (meta_key j) = [] := by
        simp [Store.del, Store.hgetall]
      have hlist : ((s.del (frames_key j)).del (meta_key j)).lrangeAll
          (frames_key j) = [] := by
        simp [Store.del, Store.lrangeAll, Ne.symm (meta_key_ne_frames_key j)]
      refine ⟨by rw [hst]; exact hmeta, by rw [hst]; exact hlist, ?_⟩
      rw [hst]
      simp [download_job, hmeta]

/-- Witness for C7: retrieving completed job `"j"` twice - the first call
succeeds and deletes the cache state, the second gets the not-found
outcome. -/
theorem retrieval_one_shot_witness :
    (download_job dlEnvOk "j" (download_job dlEnvOk "j" storeDone).store).result =
      DlResult.httpError 404 "Job not found or expired" :=
  (retrieval_one_shot dlEnvOk dlEnvOk "j" storeDone
    ⟨"j.mp4", "j.mp4", "video/mp4", by decide⟩).2.2

/-- C2 counterexample: on a successful retrieval of completed job `"j"`, the
scratch area still holds the materialized frame image and the muxed output
video when the operation finishes - nothing in `download_job` removes them,
on this or any other path. -/
theorem download_scratch_left_behind_cex :
    (download_job dlEnvOk "j" storeDone).result =
      DlResult.fileResponse "j.mp4" "j.mp4" "video/mp4" ∧
    (download_job dlEnvOk "j" storeDone).scratch ≠ [] ∧
    "frame_000000.jpg" ∈ (download_job dlEnvOk "j" storeDone).scratch ∧
    "j.mp4" ∈ (download_job dlEnvOk "j" storeDone).scratch := by
  decide

/-- C2 amended: `download_job` never cleans the scratch area - on every
path that materializes frames (success and ffmpeg failure alike), every
materialized frame image is still present in the scratch area when the
operation finishes. -/
theorem download_scratch_never_cleaned (env : DlEnv) (j : String) (s : Store)
    (hmeta : s.hgetall (meta_key j) ≠ [])
    (hframes : s.lrangeAll (frames_key j) ≠ []) :
    ∀ i < (s.lrangeAll (frames_key j)).length,
      frameFileName i ∈ (download_job env j s).scratch := by
  intro i hi
  cases hf : env.ffmpegFail with
  | some e =>
      simp [download_job, hmeta, hframes, hf, List.mem_map]
      exact ⟨i, hi, rfl⟩
  | none =>
      simp [download_job, hmeta, hframes, hf, List.mem_map, List.mem_append]
      exact Or.inl ⟨i, hi, rfl⟩

/-- Witness for C2 amended: the frame file of cached frame 0 of job `"j"`
survives a successful retrieval. -/
theorem download_scratch_never_cleaned_witness :
    "frame_000000.jpg" ∈ (download_job dlEnvOk "j" storeDone).scratch :=
  download_scratch_never_cleaned dlEnvOk "j" storeDone (by decide) (by decide)
    0 (by decide)

/-- C1: refuted by the code - when the cache write of frame 0 raises, the
outer `except` block records `status=failed` and publishes an `error` event,
but the function then falls through (no `return`) to the final block, which
overwrites the status with `done` and publishes a `done` event: observers of
this failed job receive two terminal events, and the terminal `failed`
status is overwritten by `done`. -/
theorem failed_job_overwritten_with_done :
    lookupF ((run_inference_job envCacheBoom "j" "m" Store.empty).store.hgetall
      (meta_key "j")) "status" = some "done" ∧
    (run_inference_job envCacheBoom "j" "m" Store.empty).events =
      [Event.error "redis write failed",
       Event.done { model := "m", total_frames := 0, total_time_s := 0,
                    avg_fps := 0, avg_preprocess_ms := 0, avg_infer_ms := 0,
                    avg_postprocess_ms := 0 }] ∧
    ((run_inference_job envCacheBoom "j" "m" Store.empty).events.filter
      isTerminalEvent).length = 2 := by
  refine ⟨by decide, ?_, by decide⟩
  norm_num [run_inference_job, envCacheBoom, procLoop, outFrame,
    compute_metrics, roundTo, round_eq, meta_key, frames_key, Store.empty,
    Store.hset, Store.expire]

/-- C4 counterexample: on the probe-failure path, the metadata write that
sets `status=failed` is the last cache operation of the run - no TTL refresh
of the metadata key follows it, so not every metadata write refreshes the
entry's expiry. -/
theorem failed_write_skips_ttl_refresh_cex :
    everyWriteRefreshed
      (run_inference_job envProbeBoom "j" "m" Store.empty).trace = false ∧
    (run_inference_job envProbeBoom "j" "m" Store.empty).trace =
      [CacheOp.write (meta_key "j"), CacheOp.expire (meta_key "j"),
       CacheOp.expire (frames_key "j"), CacheOp.write (meta_key "j")] := by
  decide

/-- C4 amended: on runs that take no failure path (probe, model load and
video open succeed, and no cache write raises), every cache write - the
initial metadata write, each frame append, each in-loop counter write, and
the final `done` write - is immediately followed by a TTL refresh of the
written key; the metadata writes that set `status=failed` are not followed
by any refresh (see the counterexample). -/
theorem writes_refresh_ttl_on_success (env : Env) (j m : String) (s0 : Store)
    (hprobe : env.probeFail = none) (hmodel : env.modelLoadFail = none)
    (hcap : env.capOpens = true) (hcf : ∀ i, env.cacheFail i = none) :
    everyWriteImmediatelyRefreshed
      (run_inference_job env j m s0).trace = true := by
  simp only [run_inference_job, hprobe, hmodel, hcap]
  rw [procLoop_trace_noCacheFail env (frames_key j) (meta_key j)
    env.probeTotal hcf]
  simp only [List.cons_append, List.nil_append, List.append_assoc]
  simp [everyWriteImmediatelyRefreshed]
  exact ewir_loopTrace_done env (frames_key j) (meta_key j) env.frames 0

/-- Witness for C4 amended: the one-frame fully successful run issues a TTL
refresh immediately after every cache write. -/
theorem writes_refresh_ttl_on_success_witness :
    everyWriteImmediatelyRefreshed
      (run_inference_job envOneFrame "j" "m" Store.empty).trace = true :=
  writes_refresh_ttl_on_success envOneFrame "j" "m" Store.empty rfl rfl rfl
    (fun _ => rfl)

theorem download_fps_used_of_no_fps (denv : DlEnv) (j : String) (t : Store)
    (h : lookupF (t.hgetall (meta_key j)) "fps" = none) :
    (download_job denv j t).fps_used = none ∨
    (download_job denv j t).fps_used = some 25 := by
  by_cases h1 : t.hgetall (meta_key j) = []
  · left
    simp [download_job, h1]
  by_cases h2 : t.lrangeAll (frames_key j) = []
  · left
    simp [download_job, h1, h2]
  right
  cases hf : denv.ffmpegFail with
  | some e => simp [download_job, h1, h2, hf, h]
  | none => simp [download_job, h1, h2, hf, h]

/-- C3: `run_inference_job` never writes an `fps` field into the job's
metadata hash (on any execution path), so `download_job`'s metadata lookup
for `fps` misses and - whenever the muxing step is reached - the
reconstruction uses the fallback rate 25. -/
theorem fps_never_written_download_uses_25 (env : Env) (denv : DlEnv)
    (j m : String) (s0 : Store)
    (h0 : lookupF (s0.hgetall (meta_key j)) "fps" = none) :
    lookupF ((run_inference_job env j m s0).store.hgetall (meta_key j))
      "fps" = none ∧
    ((download_job denv j (run_inference_job env j m s0).store).fps_used =
        none ∨
      (download_job denv j (run_inference_job env j m s0).store).fps_used =
        some 25) := by
  have hinit : lookupF (((s0.hset (meta_key j) [("model", m),
      ("status", "running")]).expire (meta_key j)
      REDIS_TTL_SECONDS).expire (frames_key j) REDIS_TTL_SECONDS |>.hgetall
      (meta_key j)) "fps" = none := by
    rw [hgetall_expire, hgetall_expire, initWrite_lookup_fps, h0]
  have hrun : lookupF ((run_inference_job env j m s0).store.hgetall
      (meta_key j)) "fps" = none := by
    cases hp : env.probeFail with
    | some exc =>
        simp only [run_inference_job, hp]
        rw [failedWrite_lookup_fps]
        exact hinit
    | none =>
        cases hm : env.modelLoadFail with
        | some e =>
            simp only [run_inference_job, hp, hm]
            rw [failedWrite_lookup_fps]
            exact hinit
        | none =>
            by_cases hc : env.capOpens = false
            · simp only [run_inference_job, hp, hm, hc, if_true]
              rw [failedWrite_lookup_fps]
              exact hinit
            · have hct : env.capOpens = true := by
                revert hc; cases env.capOpens <;> simp
              simp only [run_inference_job, hp, hm, hct]
              rw [if_neg (by simp)]
              rw [hgetall_expire, hgetall_expire, doneWrite_lookup_fps,
                procLoop_hash_preserved env (frames_key j) (meta_key j)
                  env.probeTotal "fps" (by decide) (by decide) (by decide)
                  (by decide)]
              exact hinit
  exact ⟨hrun, download_fps_used_of_no_fps denv j _ hrun⟩

/-- Witness for C3: after a successful one-frame run, the reconstruction of
job `"jw"` muxes at the fallback rate 25. -/
theorem fps_never_written_witness :
    (download_job dlEnvOk "jw"
      (run_inference_job envOneFrame "jw" "m" Store.empty).store).fps_used =
      some 25 := by
  rcases (fps_never_written_download_uses_25 envOneFrame dlEnvOk "jw" "m"
    Store.empty rfl).2 with h | h
  · exact absurd h (by decide)
  · exact h

/-- C5 counterexample: two concrete `done` jobs refute the claim as stated.
(a) On a readable 1-frame video whose probe reports a frame count of 0
(`envProbeZero`), the job ends `done` with `processed_frames = 1` while the
probed `total_frames` is 0 - the "at most total_frames" conjunct fails.
(b) When the `expire` right after a successful `rpush` raises
(`envPostAppendBoom`, the tasks.py:151 window), the missing `return` still
writes `done`, with `processed_frames = 0` while one frame record is stored
in the cache - the "equals the number of Frame Records" conjunct fails. -/
theorem done_processed_frames_cex :
    (lookupF ((run_inference_job envProbeZero "j" "m"
        Store.empty).store.hgetall (meta_key "j")) "status" = some "done" ∧
      lookupF ((run_inference_job envProbeZero "j" "m"
        Store.empty).store.hgetall (meta_key "j")) "processed_frames" =
        some "1" ∧
      envProbeZero.probeTotal = 0) ∧
    (lookupF ((run_inference_job envPostAppendBoom "j" "m"
        Store.empty).store.hgetall (meta_key "j")) "status" = some "done" ∧
      lookupF ((run_inference_job envPostAppendBoom "j" "m"
        Store.empty).store.hgetall (meta_key "j")) "processed_frames" =
        some "0" ∧
      ((run_inference_job envPostAppendBoom "j" "m"
        Store.empty).store.lrangeAll (frames_key "j")).length = 1) := by
  decide

/-- C5 amended: for every job that reaches the `done` write with no
mid-loop cache failure, the final `processed_frames` value equals the
number of frame records actually appended for the job (encode-skipped
frames excluded from both counts), is at most the number of frames actually
read, and is at most the probed `total_frames` whenever the probe reported
at least the number of frames read.  Jobs aborted by a cache failure after
a successful append, and jobs whose probe undercounts the readable frames,
are excluded (see the counterexample). -/
theorem done_processed_frames_consistent_amended (env : Env) (j m : String)
    (s0 : Store) (hprobe : env.probeFail = none)
    (hmodel : env.modelLoadFail = none) (hcap : env.capOpens = true)
    (hcf : ∀ i, env.cacheFail i = none)
    (hfresh : s0.lrangeAll (frames_key j) = []) :
    lookupF ((run_inference_job env j m s0).store.hgetall (meta_key j))
      "status" = some "done" ∧
    ∃ n : Nat,
      lookupF ((run_inference_job env j m s0).store.hgetall (meta_key j))
        "processed_frames" = some (toString n) ∧
      n = ((run_inference_job env j m s0).store.lrangeAll
        (frames_key j)).length ∧
      n ≤ env.frames.length ∧
      (env.frames.length ≤ env.probeTotal → n ≤ env.probeTotal) := by
  simp only [run_inference_job, hprobe, hmodel, hcap]
  rw [if_neg (by decide : ¬(true = false))]
  set R := procLoop env (frames_key j) (meta_key j) env.probeTotal
    env.frames 0 0 []
    (((s0.hset (meta_key j) [("model", m), ("status", "running")]).expire
      (meta_key j) REDIS_TTL_SECONDS).expire (frames_key j)
      REDIS_TTL_SECONDS) []
    [CacheOp.write (meta_key j), CacheOp.expire (meta_key j),
     CacheOp.expire (frames_key j)] with hRdef
  obtain ⟨A, hA1, hA2, hA3⟩ := procLoop_appends env (frames_key j)
    (meta_key j) env.probeTotal hcf env.frames 0 0 []
    (((s0.hset (meta_key j) [("model", m), ("status", "running")]).expire
      (meta_key j) REDIS_TTL_SECONDS).expire (frames_key j)
      REDIS_TTL_SECONDS) []
    [CacheOp.write (meta_key j), CacheOp.expire (meta_key j),
     CacheOp.expire (frames_key j)]
  rw [← hRdef] at hA1 hA2
  have hlen : R.processed ≤ env.frames.length := by
    rw [hA2]
    simpa using hA3
  constructor
  · rw [hgetall_expire, hgetall_expire, doneWrite_lookup_status]
  refine ⟨R.processed, ?_, ?_, hlen, ?_⟩
  · rw [hgetall_expire, hgetall_expire, doneWrite_lookup_processed]
  · simp only [Store.lrangeAll, lists_expire, lists_hset]
    rw [hA1]
    simp only [lists_expire, lists_hset]
    simp only [Store.lrangeAll] at hfresh
    rw [hfresh]
    simpa using hA2
  · intro hle
    exact le_trans hlen hle

/-- Witness for C5 amended: the one-frame fully successful run on job
`"jw"` (with an accurate probe) ends with status `done` and a consistent
`processed_frames` count bounded by the probed total. -/
theorem done_processed_frames_consistent_amended_witness :
    lookupF ((run_inference_job envOneFrame "jw" "m"
      Store.empty).store.hgetall (meta_key "jw")) "status" = some "done" ∧
    ∃ n : Nat,
      lookupF ((run_inference_job envOneFrame "jw" "m"
        Store.empty).store.hgetall (meta_key "jw")) "processed_frames" =
        some (toString n) ∧
      n = ((run_inference_job envOneFrame "jw" "m"
        Store.empty).store.lrangeAll (frames_key "jw")).length ∧
      n ≤ envOneFrame.frames.length ∧
      (envOneFrame.frames.length ≤ envOneFrame.probeTotal →
        n ≤ envOneFrame.probeTotal) :=
  done_processed_frames_consistent_amended envOneFrame "jw" "m" Store.empty
    rfl rfl rfl (fun _ => rfl) rfl

/-- C8: when the adapter's `predict` raises on some frames but every frame
encodes and no cache write fails, the pipeline falls back to the raw frame
for each failing index, still emits a `frame` event (carrying the encoding
of the raw frame) and a `progress` event for it, and the job still reaches
`done` with `processed_frames` equal to the full frame count. -/
theorem per_frame_inference_failure_nonfatal (env : Env) (j m : String)
    (s0 : Store) (encF : Frame → Bytes) (hprobe : env.probeFail = none)
    (hmodel : env.modelLoadFail = none) (hcap : env.capOpens = true)
    (hcf : ∀ i, env.cacheFail i = none)
    (henc : ∀ f, env.encode f = some (encF f)) :
    lookupF ((run_inference_job env j m s0).store.hgetall (meta_key j))
      "status" = some "done" ∧
    lookupF ((run_inference_job env j m s0).store.hgetall (meta_key j))
      "processed_frames" = some (toString env.frames.length) ∧
    ∀ i, (hi : i < env.frames.length) → env.inferOk i = false →
      Event.frame i (encF (env.frames.get ⟨i, hi⟩)) ∈
        (run_inference_job env j m s0).events ∧
      ∃ q, Event.progress (i + 1) env.probeTotal q ∈
        (run_inference_job env j m s0).events := by
  simp only [run_inference_job, hprobe, hmodel, hcap]
  rw [if_neg (by decide : ¬(true = false))]
  set R := procLoop env (frames_key j) (meta_key j) env.probeTotal
    env.frames 0 0 []
    (((s0.hset (meta_key j) [("model", m), ("status", "running")]).expire
      (meta_key j) REDIS_TTL_SECONDS).expire (frames_key j)
      REDIS_TTL_SECONDS) []
    [CacheOp.write (meta_key j), CacheOp.expire (meta_key j),
     CacheOp.expire (frames_key j)] with hRdef
  have hproc : R.processed = env.frames.length := by
    rw [hRdef]
    rw [procLoop_processed_encTotal env (frames_key j) (meta_key j)
      env.probeTotal encF hcf henc]
    omega
  refine ⟨?_, ?_, ?_⟩
  · rw [hgetall_expire, hgetall_expire, doneWrite_lookup_status]
  · rw [hgetall_expire, hgetall_expire, doneWrite_lookup_processed, hproc]
  · intro i hi hfail
    constructor
    · have hm2 := procLoop_frame_event_mem env (frames_key j) (meta_key j)
        env.probeTotal encF hcf henc env.frames 0 0 []
        (((s0.hset (meta_key j) [("model", m), ("status", "running")]).expire
          (meta_key j) REDIS_TTL_SECONDS).expire (frames_key j)
          REDIS_TTL_SECONDS) []
        [CacheOp.write (meta_key j), CacheOp.expire (meta_key j),
         CacheOp.expire (frames_key j)] i (by simpa using hi)
      rw [← hRdef] at hm2
      rw [Nat.zero_add] at hm2
      simp only [outFrame, hfail, if_false] at hm2
      exact List.mem_append_left _ hm2
    · obtain ⟨q, hq⟩ := procLoop_progress_event_mem env (frames_key j)
        (meta_key j) env.probeTotal encF hcf henc env.frames 0 0 []
        (((s0.hset (meta_key j) [("model", m), ("status", "running")]).expire
          (meta_key j) REDIS_TTL_SECONDS).expire (frames_key j)
          REDIS_TTL_SECONDS) []
        [CacheOp.write (meta_key j), CacheOp.expire (meta_key j),
         CacheOp.expire (frames_key j)] i (by simpa using hi)
      rw [← hRdef] at hq
      rw [Nat.zero_add] at hq
      exact ⟨q, List.mem_append_left _ hq⟩

/-- Witness for C8: in the 10-frame run whose inference fails exactly on
frame index 5, a `frame` event for index 5 carrying the encoded raw frame
and a matching `progress` event are emitted, and the job reaches `done` with
all 10 frames processed. -/
theorem per_frame_inference_failure_nonfatal_witness :
    Event.frame 5 [5] ∈
      (run_inference_job envHappy "jw" "m" Store.empty).events ∧
    (∃ q, Event.progress 6 envHappy.probeTotal q ∈
      (run_inference_job envHappy "jw" "m" Store.empty).events) ∧
    lookupF ((run_inference_job envHappy "jw" "m" Store.empty).store.hgetall
      (meta_key "jw")) "status" = some "done" ∧
    lookupF ((run_inference_job envHappy "jw" "m" Store.empty).store.hgetall
      (meta_key "jw")) "processed_frames" = some (toString (10 : Nat)) := by
  have h := per_frame_inference_failure_nonfatal envHappy "jw" "m"
    Store.empty (fun f => [f]) rfl rfl rfl (fun _ => rfl) (fun _ => rfl)
  have h5 := h.2.2 5 (by decide) rfl
  exact ⟨h5.1, h5.2, h.1, h.2.1⟩
